import Mathlib

/-!
Shallow embedding of the gRPC handler layer of the `ledger` repository
(`internal/web/server.go`).

The Go handlers are methods on `grpcServer`, which holds a `Config` with
three injected collaborators: a `CommitLog` (Append/Read), an optional
`Authorizer` (Authorize), and a `ServerGetter` (GetServers).  We model the
commit log as an explicit state machine over an abstract state type `σ`
(both `append` and `read` may update the state, as the Go interface
permits), and we instrument every handler with an event trace recording,
in order, each `Authorize` call and each commit-log operation it performs.
Streaming handlers are modelled as one-iteration step functions plus a
fuel-indexed run function.
-/

namespace Ledger

/-- Mirror of `api.Record`: an opaque byte payload plus an offset field. -/
structure Record where
  value : List Nat
  offset : Nat
deriving DecidableEq

/-- Error values crossing the commit-log contract. `offsetOutOfRange`
mirrors `api.ErrOffsetOutOfRange` (the one error type the streaming
handler type-switches on); the remaining constructors model every other
error kind (`NotLeader`, `Timeout`, `CorruptState`, anything else). -/
inductive Err where
  | offsetOutOfRange (offset : Nat)
  | notLeader
  | timeout
  | corruptState
  | other (msg : String)
deriving DecidableEq

/-- The type test `err.(type) == api.ErrOffsetOutOfRange` from the Go
`switch` in `ConsumeStream`. -/
def Err.isOffsetOutOfRange : Err → Bool
  | .offsetOutOfRange _ => true
  | _ => false

/-- Mirror of `api.ProduceRequest`. -/
structure ProduceRequest where
  record : Record
deriving DecidableEq

/-- Mirror of `api.ProduceResponse`. -/
structure ProduceResponse where
  offset : Nat
deriving DecidableEq

/-- Mirror of `api.ConsumeRequest`. -/
structure ConsumeRequest where
  offset : Nat
deriving DecidableEq

/-- Mirror of `api.ConsumeResponse`. -/
structure ConsumeResponse where
  record : Record
deriving DecidableEq

/-- Mirror of `api.Server`: `(id, address, leader flag)`. -/
structure Server where
  id : String
  rpcAddr : String
  isLeader : Bool
deriving DecidableEq

/-- Mirror of `api.GetServersResponse`. -/
structure GetServersResponse where
  servers : List Server
deriving DecidableEq

/-- The `CommitLog` interface of `server.go`: `Append(*api.Record) (uint64,
error)` and `Read(uint64) (*api.Record, error)`.  The implementation behind
the interface may hold mutable state, so both operations take and return an
abstract state `σ`. -/
structure CommitLog (σ : Type) where
  append : σ → Record → σ × Except Err Nat
  read : σ → Nat → σ × Except Err Record

/-- The `Authorizer` interface: `Authorize(subject, object, action string)
error`.  `none` means the check passed. -/
structure Authorizer where
  authorize : String → String → String → Option Err

/-- The `ServerGetter` interface: `GetServers() ([]*api.Server, error)`. -/
structure ServerGetter where
  getServers : Except Err (List Server)

/-- Mirror of `web.Config`: the three collaborators injected into the
server; the authorizer may be absent (`nil` in Go). -/
structure Config (σ : Type) where
  commitLog : CommitLog σ
  authorizer : Option Authorizer
  serverGetter : ServerGetter

/-- ACL policy keyword `objectWildcard = "*"`. -/
def objectWildcard : String := "*"

/-- ACL policy keyword `produceAction = "produce"`. -/
def produceAction : String := "produce"

/-- ACL policy keyword `consumeAction = "consume"`. -/
def consumeAction : String := "consume"

/-- One observable interaction of a handler with its collaborators: an
`Authorize(subject, object, action)` call, a `CommitLog.Append`, or a
`CommitLog.Read`. -/
inductive Event where
  | auth (subject object action : String)
  | append (r : Record)
  | read (offset : Nat)
deriving DecidableEq

/-- Result of running a unary handler: the commit-log state afterwards, the
Go `(response, error)` pair (as an `Except`), and the ordered trace of
collaborator calls the handler made. -/
structure HandlerOut (σ α : Type) where
  state : σ
  result : Except Err α
  events : List Event

/-- The commit-log half of `Produce`: `offset, err := s.CommitLog.Append(
req.Record); if err != nil return nil, err; return ProduceResponse, nil`. -/
def produceCore (cfg : Config σ) (req : ProduceRequest) (s : σ) :
    HandlerOut σ ProduceResponse :=
  match cfg.commitLog.append s req.record with
  | (s₂, .error e) => ⟨s₂, .error e, [.append req.record]⟩
  | (s₂, .ok off) => ⟨s₂, .ok ⟨off⟩, [.append req.record]⟩

/-- `grpcServer.Produce`.  Note the Go source authorizes with
`consumeAction`, not `produceAction`. -/
def Produce (cfg : Config σ) (subj : String) (req : ProduceRequest) (s : σ) :
    HandlerOut σ ProduceResponse :=
  match cfg.authorizer with
  | none => produceCore cfg req s
  | some a =>
    match a.authorize subj objectWildcard consumeAction with
    | some e => ⟨s, .error e, [.auth subj objectWildcard consumeAction]⟩
    | none =>
      let out := produceCore cfg req s
      ⟨out.state, out.result, .auth subj objectWildcard consumeAction :: out.events⟩

/-- The commit-log half of `Consume`: `record, err := s.CommitLog.Read(
req.Offset); if err != nil return nil, err; return ConsumeResponse, nil`. -/
def consumeCore (cfg : Config σ) (req : ConsumeRequest) (s : σ) :
    HandlerOut σ ConsumeResponse :=
  match cfg.commitLog.read s req.offset with
  | (s₂, .error e) => ⟨s₂, .error e, [.read req.offset]⟩
  | (s₂, .ok r) => ⟨s₂, .ok ⟨r⟩, [.read req.offset]⟩

/-- `grpcServer.Consume`. -/
def Consume (cfg : Config σ) (subj : String) (req : ConsumeRequest) (s : σ) :
    HandlerOut σ ConsumeResponse :=
  match cfg.authorizer with
  | none => consumeCore cfg req s
  | some a =>
    match a.authorize subj objectWildcard consumeAction with
    | some e => ⟨s, .error e, [.auth subj objectWildcard consumeAction]⟩
    | none =>
      let out := consumeCore cfg req s
      ⟨out.state, out.result, .auth subj objectWildcard consumeAction :: out.events⟩

/-- `grpcServer.GetServers`: delegate to `ServerGetter.GetServers`,
surfacing its error, else wrap the server list in a response. -/
def GetServers (cfg : Config σ) : Except Err GetServersResponse :=
  match cfg.serverGetter.getServers with
  | .error e => .error e
  | .ok servers => .ok ⟨servers⟩

/-- The `grpc.ServerOption` values relevant to `NewGRPCServer`: the two
interceptor chains it may install, and any caller-supplied option. -/
inductive ServerOption where
  | streamInterceptor
  | unaryInterceptor
  | other (n : Nat)
deriving DecidableEq

/-- The option-assembly step of `NewGRPCServer`: when `config.Authorizer`
is non-nil it appends the identity-extracting stream and unary
interceptors to the caller-supplied options, otherwise it leaves the
options untouched. -/
def NewGRPCServer (cfg : Config σ) (opts : List ServerOption) :
    List ServerOption :=
  match cfg.authorizer with
  | some _ => opts ++ [.streamInterceptor, .unaryInterceptor]
  | none => opts

/-- Environment of one `ConsumeStream` invocation: the server config, the
caller identity from the stream context, the stream context's `Done`
channel sampled per loop iteration (`ctxDone i` is whether the context is
done when iteration `i` runs its `select`), and the gRPC `stream.Send`,
which may carry its own state `τ` and fail. -/
structure StreamEnv (σ τ : Type) where
  cfg : Config σ
  subj : String
  ctxDone : Nat → Bool
  send : τ → ConsumeResponse → τ × Option Err

/-- Mutable state of the `ConsumeStream` loop: the iteration counter, the
request's `Offset` field (mutated in place by `req.Offset += 1`), the
commit-log state, the stream state, the trace of `(offset at send time,
response)` pairs successfully sent, and the collaborator event trace. -/
structure LoopState (σ τ : Type) where
  iter : Nat
  offset : Nat
  log : σ
  stream : τ
  sent : List (Nat × ConsumeResponse)
  events : List Event

/-- Outcome of one iteration of the `ConsumeStream` loop body: `ret e st`
is Go `return` (with `e = none` for `return nil`), `next st` continues the
loop. -/
inductive StepOut (σ τ : Type) where
  | ret (e : Option Err) (st : LoopState σ τ)
  | next (st : LoopState σ τ)

/-- One iteration of `grpcServer.ConsumeStream`: the `select` first yields
to `<-stream.Context().Done()` (returning nil), otherwise the `default`
branch calls `Consume`, type-switches its error (`nil` falls through,
`api.ErrOffsetOutOfRange` continues without touching `req.Offset`, any
other error is returned), sends the response (returning the send error on
failure), and finally increments `req.Offset` by one. -/
def consumeStreamStep (env : StreamEnv σ τ) (st : LoopState σ τ) :
    StepOut σ τ :=
  if env.ctxDone st.iter then .ret none st
  else
    let out := Consume env.cfg env.subj ⟨st.offset⟩ st.log
    match out.result with
    | .error e =>
      if e.isOffsetOutOfRange then
        .next { st with iter := st.iter + 1, log := out.state,
                        events := st.events ++ out.events }
      else
        .ret (some e) { st with log := out.state,
                                events := st.events ++ out.events }
    | .ok res =>
      match env.send st.stream res with
      | (t₂, some e) =>
        .ret (some e) { st with log := out.state, stream := t₂,
                                events := st.events ++ out.events }
      | (t₂, none) =>
        .next { st with iter := st.iter + 1, offset := st.offset + 1,
                        log := out.state, stream := t₂,
                        sent := st.sent ++ [(st.offset, res)],
                        events := st.events ++ out.events }

/-- Outcome of running the loop for a finite number of iterations: either
the handler returned (`terminated`), or it is still looping (`running`) —
the Go loop itself has no exit other than the `return` statements. -/
inductive RunOut (σ τ : Type) where
  | terminated (e : Option Err) (st : LoopState σ τ)
  | running (st : LoopState σ τ)

/-- Run the `ConsumeStream` loop for at most `fuel` iterations. -/
def consumeStreamRun (env : StreamEnv σ τ) :
    Nat → LoopState σ τ → RunOut σ τ
  | 0, st => .running st
  | fuel + 1, st =>
    match consumeStreamStep env st with
    | .ret e st₂ => .terminated e st₂
    | .next st₂ => consumeStreamRun env fuel st₂

/-- The loop state at the entry of `ConsumeStream(req, stream)`: iteration
0, request offset as given, no responses sent yet, empty event trace. -/
def initLoopState (req : ConsumeRequest) (s : σ) (t : τ) : LoopState σ τ :=
  ⟨0, req.offset, s, t, [], []⟩

/-- Environment of one `ProduceStream` invocation: config, caller identity,
and the bidirectional stream's `Recv`/`Send`, each threading stream state
`τ`. -/
structure ProduceStreamEnv (σ τ : Type) where
  cfg : Config σ
  subj : String
  recv : τ → τ × Except Err ProduceRequest
  send : τ → ProduceResponse → τ × Option Err

/-- Outcome of one iteration of the `ProduceStream` loop: a `return err`
or continue, carrying log state, stream state, and the events of the
iteration's `Produce` call. -/
inductive PStepOut (σ τ : Type) where
  | ret (e : Err) (s : σ) (t : τ) (events : List Event)
  | next (s : σ) (t : τ) (events : List Event)

/-- One iteration of `grpcServer.ProduceStream`: `Recv` a request
(returning its error on failure), delegate to `Produce` (returning its
error on failure), `Send` the response (returning its error on failure). -/
def produceStreamStep (env : ProduceStreamEnv σ τ) (s : σ) (t : τ) :
    PStepOut σ τ :=
  match env.recv t with
  | (t₂, .error e) => .ret e s t₂ []
  | (t₂, .ok req) =>
    let out := Produce env.cfg env.subj req s
    match out.result with
    | .error e => .ret e out.state t₂ out.events
    | .ok res =>
      match env.send t₂ res with
      | (t₃, some e) => .ret e out.state t₃ out.events
      | (t₃, none) => .next out.state t₃ out.events

/-! ### Concrete instances used to exhibit the theorems on closed inputs -/

/-- A concrete in-memory commit log over a list of records: `append`
assigns the next dense offset, `read` fails with `ErrOffsetOutOfRange`
past the end. -/
def demoLog : CommitLog (List Record) where
  append := fun s r => (s ++ [r], .ok s.length)
  read := fun s n =>
    match s[n]? with
    | some r => (s, .ok r)
    | none => (s, .error (.offsetOutOfRange n))

/-- A commit log whose operations always fail, for exercising the error
paths. -/
def failLog : CommitLog (List Record) where
  append := fun s _ => (s, .error .notLeader)
  read := fun s _ => (s, .error .timeout)

/-- An authorizer that always denies. -/
def denyAuth : Authorizer where
  authorize := fun _ _ _ => some (.other "denied")

/-- An authorizer that always allows. -/
def allowAuth : Authorizer where
  authorize := fun _ _ _ => none

/-- A server getter returning one fixed server. -/
def demoGetter : ServerGetter where
  getServers := .ok [⟨"a", "addr-a", true⟩]

/-- A sample record. -/
def rec0 : Record := ⟨[7, 7], 0⟩

/-- Config with no authorizer over the in-memory log. -/
def cfgNoAuth : Config (List Record) := ⟨demoLog, none, demoGetter⟩

/-- Config with the always-allow authorizer over the in-memory log. -/
def cfgAllow : Config (List Record) := ⟨demoLog, some allowAuth, demoGetter⟩

/-- Config with the always-deny authorizer over the in-memory log. -/
def cfgDeny : Config (List Record) := ⟨demoLog, some denyAuth, demoGetter⟩

/-- Config with no authorizer over the always-failing log. -/
def cfgFail : Config (List Record) := ⟨failLog, none, demoGetter⟩

/-- A stream send that always succeeds, counting sends in its state. -/
def okSend : Nat → ConsumeResponse → Nat × Option Err :=
  fun t _ => (t + 1, none)

/-- The loop state carried by a run outcome, whether or not the handler
has returned. -/
def RunOut.state : RunOut σ τ → LoopState σ τ
  | .terminated _ st => st
  | .running st => st

/-- Iterate the `Consume` handler `n` times with a fixed request,
threading the commit-log state from call to call (a client retrying the
same read). -/
def consumeRepeat (cfg : Config σ) (subj : String) (req : ConsumeRequest) :
    Nat → σ → σ
  | 0, s => s
  | n + 1, s => consumeRepeat cfg subj req n (Consume cfg subj req s).state

/-- Every `Authorize` call recorded in a trace was made with the consume
action string. -/
def authActionsAreConsume (l : List Event) : Prop :=
  ∀ su ob ac, Event.auth su ob ac ∈ l → ac = consumeAction

/-- A stream environment over the in-memory log whose context is never
cancelled and whose sends always succeed. -/
def demoEnv : StreamEnv (List Record) Nat :=
  ⟨cfgNoAuth, "alice", fun _ => false, okSend⟩

/-- Like `demoEnv` but with the context already done at every iteration. -/
def doneEnv : StreamEnv (List Record) Nat :=
  ⟨cfgNoAuth, "alice", fun _ => true, okSend⟩

/-- A bidirectional produce-stream environment that always receives the
same request and always sends successfully. -/
def demoPEnv : ProduceStreamEnv (List Record) Nat :=
  ⟨cfgAllow, "alice", fun t => (t, .ok ⟨rec0⟩), fun t _ => (t + 1, none)⟩

/-- A commit log whose reads always fail with `ErrOffsetOutOfRange`, for
exercising the streaming retry path. -/
def oorLog : CommitLog (List Record) where
  append := fun s r => (s ++ [r], .ok s.length)
  read := fun s n => (s, .error (.offsetOutOfRange n))

/-- Config with no authorizer over the always-out-of-range log. -/
def cfgOor : Config (List Record) := ⟨oorLog, none, demoGetter⟩

/-- A never-cancelled stream environment over the always-out-of-range
log. -/
def oorEnv : StreamEnv (List Record) Nat :=
  ⟨cfgOor, "alice", fun _ => false, okSend⟩

/-- The loop state at the start of a stream at offset 0 over the empty
in-memory log. -/
def st0 : LoopState (List Record) Nat := initLoopState ⟨0⟩ [] 0

/-- The loop state at the start of a stream at offset 0 over the
in-memory log holding one record. -/
def st1 : LoopState (List Record) Nat := initLoopState ⟨0⟩ [rec0] 0

/-!
## Helper lemmas about the unary handlers
-/

theorem produceCore_append_error {σ : Type} {cfg : Config σ}
    {req : ProduceRequest} {s s₂ : σ} {e : Err}
    (h : cfg.commitLog.append s req.record = (s₂, .error e)) :
    produceCore cfg req s = ⟨s₂, .error e, [.append req.record]⟩ := by
  simp [produceCore, h]

theorem produceCore_append_ok {σ : Type} {cfg : Config σ}
    {req : ProduceRequest} {s s₂ : σ} {off : Nat}
    (h : cfg.commitLog.append s req.record = (s₂, .ok off)) :
    produceCore cfg req s = ⟨s₂, .ok ⟨off⟩, [.append req.record]⟩ := by
  simp [produceCore, h]

theorem produceCore_events {σ : Type} (cfg : Config σ)
    (req : ProduceRequest) (s : σ) :
    (produceCore cfg req s).events = [.append req.record] := by
  rcases h : cfg.commitLog.append s req.record with ⟨s₂, r⟩
  cases r <;> simp [produceCore, h]

theorem produceCore_result_ok {σ : Type} {cfg : Config σ}
    {req : ProduceRequest} {s : σ} {resp : ProduceResponse}
    (h : (produceCore cfg req s).result = .ok resp) :
    (cfg.commitLog.append s req.record).2 = .ok resp.offset := by
  rcases hap : cfg.commitLog.append s req.record with ⟨s₂, r⟩
  cases r with
  | error e => simp [produceCore, hap] at h
  | ok off =>
    simp [produceCore, hap] at h
    simp [← h]

theorem consumeCore_read_error {σ : Type} {cfg : Config σ}
    {req : ConsumeRequest} {s s₂ : σ} {e : Err}
    (h : cfg.commitLog.read s req.offset = (s₂, .error e)) :
    consumeCore cfg req s = ⟨s₂, .error e, [.read req.offset]⟩ := by
  simp [consumeCore, h]

theorem consumeCore_read_ok {σ : Type} {cfg : Config σ}
    {req : ConsumeRequest} {s s₂ : σ} {r : Record}
    (h : cfg.commitLog.read s req.offset = (s₂, .ok r)) :
    consumeCore cfg req s = ⟨s₂, .ok ⟨r⟩, [.read req.offset]⟩ := by
  simp [consumeCore, h]

theorem consumeCore_events {σ : Type} (cfg : Config σ)
    (req : ConsumeRequest) (s : σ) :
    (consumeCore cfg req s).events = [.read req.offset] := by
  rcases h : cfg.commitLog.read s req.offset with ⟨s₂, r⟩
  cases r <;> simp [consumeCore, h]

theorem consumeCore_state {σ : Type} (cfg : Config σ)
    (req : ConsumeRequest) (s : σ) :
    (consumeCore cfg req s).state = (cfg.commitLog.read s req.offset).1 := by
  rcases h : cfg.commitLog.read s req.offset with ⟨s₂, r⟩
  cases r <;> simp [consumeCore, h]

theorem Produce_auth_none {σ : Type} {cfg : Config σ}
    (h : cfg.authorizer = none) (subj : String) (req : ProduceRequest)
    (s : σ) : Produce cfg subj req s = produceCore cfg req s := by
  simp [Produce, h]

theorem Produce_auth_denied {σ : Type} {cfg : Config σ} {a : Authorizer}
    {subj : String} {e : Err} (hA : cfg.authorizer = some a)
    (he : a.authorize subj objectWildcard consumeAction = some e)
    (req : ProduceRequest) (s : σ) :
    Produce cfg subj req s =
      ⟨s, .error e, [.auth subj objectWildcard consumeAction]⟩ := by
  simp [Produce, hA, he]

theorem Produce_auth_ok {σ : Type} {cfg : Config σ} {a : Authorizer}
    {subj : String} (hA : cfg.authorizer = some a)
    (he : a.authorize subj objectWildcard consumeAction = none)
    (req : ProduceRequest) (s : σ) :
    Produce cfg subj req s =
      ⟨(produceCore cfg req s).state, (produceCore cfg req s).result,
        .auth subj objectWildcard consumeAction ::
          (produceCore cfg req s).events⟩ := by
  simp [Produce, hA, he]

theorem Consume_auth_none {σ : Type} {cfg : Config σ}
    (h : cfg.authorizer = none) (subj : String) (req : ConsumeRequest)
    (s : σ) : Consume cfg subj req s = consumeCore cfg req s := by
  simp [Consume, h]

theorem Consume_auth_denied {σ : Type} {cfg : Config σ} {a : Authorizer}
    {subj : String} {e : Err} (hA : cfg.authorizer = some a)
    (he : a.authorize subj objectWildcard consumeAction = some e)
    (req : ConsumeRequest) (s : σ) :
    Consume cfg subj req s =
      ⟨s, .error e, [.auth subj objectWildcard consumeAction]⟩ := by
  simp [Consume, hA, he]

theorem Consume_auth_ok {σ : Type} {cfg : Config σ} {a : Authorizer}
    {subj : String} (hA : cfg.authorizer = some a)
    (he : a.authorize subj objectWildcard consumeAction = none)
    (req : ConsumeRequest) (s : σ) :
    Consume cfg subj req s =
      ⟨(consumeCore cfg req s).state, (consumeCore cfg req s).result,
        .auth subj objectWildcard consumeAction ::
          (consumeCore cfg req s).events⟩ := by
  simp [Consume, hA, he]

/-!
## Claims about the unary handlers
-/

/-- C4: for every Produce and every Consume request whose authorization
check passes (or is absent), when the commit-log operation (`Append` for
Produce, `Read` for Consume) returns an error, the handler returns exactly
that error, untranslated, with no response. -/
theorem c4_commitlog_errors_surface_verbatim (σ : Type) (cfg : Config σ)
    (subj : String)
    (hauth : ∀ a, cfg.authorizer = some a →
      a.authorize subj objectWildcard consumeAction = none) :
    (∀ (req : ProduceRequest) (s s₂ : σ) (e : Err),
        cfg.commitLog.append s req.record = (s₂, .error e) →
        (Produce cfg subj req s).result = .error e) ∧
    (∀ (req : ConsumeRequest) (s s₂ : σ) (e : Err),
        cfg.commitLog.read s req.offset = (s₂, .error e) →
        (Consume cfg subj req s).result = .error e) := by
  constructor
  · intro req s s₂ e h
    cases hA : cfg.authorizer with
    | none => rw [Produce_auth_none hA, produceCore_append_error h]
    | some a =>
      rw [Produce_auth_ok hA (hauth a hA), produceCore_append_error h]
  · intro req s s₂ e h
    cases hA : cfg.authorizer with
    | none => rw [Consume_auth_none hA, consumeCore_read_error h]
    | some a =>
      rw [Consume_auth_ok hA (hauth a hA), consumeCore_read_error h]

/-- Witness for C4 at a concrete failing commit log with no authorizer:
the `NotLeader` append error and the `Timeout` read error come back
verbatim. -/
theorem c4_witness :
    (Produce cfgFail "alice" ⟨rec0⟩ []).result = .error .notLeader ∧
    (Consume cfgFail "alice" ⟨0⟩ []).result = .error .timeout := by
  have hauth : ∀ a, cfgFail.authorizer = some a →
      a.authorize "alice" objectWildcard consumeAction = none := by
    intro a h
    simp [cfgFail] at h
  exact ⟨(c4_commitlog_errors_surface_verbatim (List Record) cfgFail "alice"
      hauth).1 ⟨rec0⟩ [] [] .notLeader rfl,
    (c4_commitlog_errors_surface_verbatim (List Record) cfgFail "alice"
      hauth).2 ⟨0⟩ [] [] .timeout rfl⟩

/-- C5: a Produce response, when one is returned, carries exactly the
offset assigned by `CommitLog.Append` on that request's record; and when
authorization passes and `Append` assigns `off`, the handler's result is
the response with offset `off` (responses and errors are mutually
exclusive by the shape of the result type). -/
theorem c5_produce_offset_is_append_offset (σ : Type) (cfg : Config σ)
    (subj : String) (req : ProduceRequest) (s : σ) :
    (∀ resp : ProduceResponse, (Produce cfg subj req s).result = .ok resp →
        (cfg.commitLog.append s req.record).2 = .ok resp.offset) ∧
    ((∀ a, cfg.authorizer = some a →
        a.authorize subj objectWildcard consumeAction = none) →
      ∀ (s₂ : σ) (off : Nat),
        cfg.commitLog.append s req.record = (s₂, .ok off) →
        (Produce cfg subj req s).result = .ok ⟨off⟩) := by
  constructor
  · intro resp h
    cases hA : cfg.authorizer with
    | none =>
      rw [Produce_auth_none hA] at h
      exact produceCore_result_ok h
    | some a =>
      cases he : a.authorize subj objectWildcard consumeAction with
      | none =>
        rw [Produce_auth_ok hA he] at h
        exact produceCore_result_ok h
      | some e =>
        rw [Produce_auth_denied hA he] at h
        cases h
  · intro hauth s₂ off h
    cases hA : cfg.authorizer with
    | none => rw [Produce_auth_none hA, produceCore_append_ok h]
    | some a =>
      rw [Produce_auth_ok hA (hauth a hA), produceCore_append_ok h]

/-- Witness for C5 over the in-memory log: appending to the empty log
assigns offset 0 and the handler reports exactly offset 0. -/
theorem c5_witness :
    (cfgNoAuth.commitLog.append [] rec0).2 = .ok (⟨0⟩ : ProduceResponse).offset ∧
    (Produce cfgNoAuth "alice" ⟨rec0⟩ []).result = .ok ⟨0⟩ := by
  have hauth : ∀ a, cfgNoAuth.authorizer = some a →
      a.authorize "alice" objectWildcard consumeAction = none := by
    intro a h
    simp [cfgNoAuth] at h
  exact ⟨(c5_produce_offset_is_append_offset (List Record) cfgNoAuth "alice"
      ⟨rec0⟩ []).1 ⟨0⟩ rfl,
    (c5_produce_offset_is_append_offset (List Record) cfgNoAuth "alice"
      ⟨rec0⟩ []).2 hauth [rec0] 0 rfl⟩

/-- C6: with an authorizer installed, a denied `Authorize` check makes the
handler return the authorizer's error verbatim with the commit-log state
untouched and no commit-log call recorded; and whatever the check's
outcome, the first collaborator interaction of both handlers is the
`Authorize` call — the commit log is only ever consulted after it. -/
theorem c6_authorize_gates_commitlog (σ : Type) (cfg : Config σ)
    (a : Authorizer) (subj : String) (hA : cfg.authorizer = some a) :
    (∀ e : Err, a.authorize subj objectWildcard consumeAction = some e →
      (∀ (req : ProduceRequest) (s : σ),
          Produce cfg subj req s =
            ⟨s, .error e, [.auth subj objectWildcard consumeAction]⟩) ∧
      (∀ (req : ConsumeRequest) (s : σ),
          Consume cfg subj req s =
            ⟨s, .error e, [.auth subj objectWildcard consumeAction]⟩)) ∧
    (∀ (req : ProduceRequest) (s : σ),
        (Produce cfg subj req s).events.head? =
          some (.auth subj objectWildcard consumeAction)) ∧
    (∀ (req : ConsumeRequest) (s : σ),
        (Consume cfg subj req s).events.head? =
          some (.auth subj objectWildcard consumeAction)) := by
  refine ⟨fun e he => ⟨fun req s => Produce_auth_denied hA he req s,
    fun req s => Consume_auth_denied hA he req s⟩, ?_, ?_⟩
  · intro req s
    cases he : a.authorize subj objectWildcard consumeAction with
    | some e => rw [Produce_auth_denied hA he]; rfl
    | none => rw [Produce_auth_ok hA he]; rfl
  · intro req s
    cases he : a.authorize subj objectWildcard consumeAction with
    | some e => rw [Consume_auth_denied hA he]; rfl
    | none => rw [Consume_auth_ok hA he]; rfl

/-- Witness for C6 at the always-denying authorizer: both unary handlers
return the denial verbatim, leave the log state alone, and record no
commit-log call. -/
theorem c6_witness :
    Produce cfgDeny "alice" ⟨rec0⟩ [] =
      ⟨[], .error (.other "denied"),
        [.auth "alice" objectWildcard consumeAction]⟩ ∧
    Consume cfgDeny "alice" ⟨0⟩ [] =
      ⟨[], .error (.other "denied"),
        [.auth "alice" objectWildcard consumeAction]⟩ := by
  exact ⟨((c6_authorize_gates_commitlog (List Record) cfgDeny denyAuth "alice"
      rfl).1 (.other "denied") rfl).1 ⟨rec0⟩ [],
    ((c6_authorize_gates_commitlog (List Record) cfgDeny denyAuth "alice"
      rfl).1 (.other "denied") rfl).2 ⟨0⟩ []⟩

/-- C7: the Consume handler never records an `Append` against the commit
log, and — under the commit-log contract that reads do not mutate state —
its final state equals its initial state, so repeating the identical
request any number of times leaves the state fixed and every repetition
returns the very same output. -/
theorem c7_consume_is_readonly_and_idempotent (σ : Type) (cfg : Config σ)
    (subj : String) (req : ConsumeRequest) :
    (∀ (s : σ) (ev : Event), ev ∈ (Consume cfg subj req s).events →
        ∀ r : Record, ev ≠ .append r) ∧
    ((∀ (s : σ) (n : Nat), (cfg.commitLog.read s n).1 = s) →
      ∀ s : σ, (Consume cfg subj req s).state = s ∧
        (∀ n : Nat, consumeRepeat cfg subj req n s = s) ∧
        (∀ n : Nat, Consume cfg subj req (consumeRepeat cfg subj req n s) =
          Consume cfg subj req s)) := by
  constructor
  · intro s ev hev r
    cases hA : cfg.authorizer with
    | none =>
      rw [Consume_auth_none hA, consumeCore_events] at hev
      simp at hev
      subst hev
      simp
    | some a =>
      cases he : a.authorize subj objectWildcard consumeAction with
      | some e =>
        rw [Consume_auth_denied hA he] at hev
        simp at hev
        subst hev
        simp
      | none =>
        rw [Consume_auth_ok hA he] at hev
        simp [consumeCore_events] at hev
        rcases hev with hev | hev <;> subst hev <;> simp
  · intro hpure s
    have hstate : ∀ s₁ : σ, (Consume cfg subj req s₁).state = s₁ := by
      intro s₁
      cases hA : cfg.authorizer with
      | none => rw [Consume_auth_none hA, consumeCore_state, hpure]
      | some a =>
        cases he : a.authorize subj objectWildcard consumeAction with
        | some e => rw [Consume_auth_denied hA he]
        | none =>
          rw [Consume_auth_ok hA he]
          simp [consumeCore_state, hpure]
    have hrep : ∀ (n : Nat) (s₁ : σ), consumeRepeat cfg subj req n s₁ = s₁ := by
      intro n
      induction n with
      | zero => intro s₁; rfl
      | succ n ih =>
        intro s₁
        simp only [consumeRepeat]
        rw [hstate]
        exact ih s₁
    exact ⟨hstate s, fun n => hrep n s, fun n => by rw [hrep n s]⟩

/-- Witness for C7 over the in-memory log holding one record: the recorded
event is a read (not an append), the state is unchanged, and three
repetitions leave it unchanged. -/
theorem c7_witness :
    ((Event.read 0) ≠ Event.append rec0) ∧
    (Consume cfgNoAuth "alice" ⟨0⟩ [rec0]).state = [rec0] ∧
    consumeRepeat cfgNoAuth "alice" ⟨0⟩ 3 [rec0] = [rec0] := by
  have hpure : ∀ (s : List Record) (n : Nat),
      (cfgNoAuth.commitLog.read s n).1 = s := by
    intro s n
    rcases h : s[n]? with _ | r <;> simp [cfgNoAuth, demoLog, h]
  refine ⟨(c7_consume_is_readonly_and_idempotent (List Record) cfgNoAuth
      "alice" ⟨0⟩).1 [] (.read 0) (by decide) rec0,
    ((c7_consume_is_readonly_and_idempotent (List Record) cfgNoAuth
      "alice" ⟨0⟩).2 hpure [rec0]).1,
    ((c7_consume_is_readonly_and_idempotent (List Record) cfgNoAuth
      "alice" ⟨0⟩).2 hpure [rec0]).2.1 3⟩

/-- C8: the GetServers handler forwards the Discovery query's server list
unchanged (same servers, same order) on success and surfaces its error
verbatim on failure. -/
theorem c8_getservers_passthrough (σ : Type) (cfg : Config σ) :
    (∀ l : List Server, cfg.serverGetter.getServers = .ok l →
        GetServers cfg = .ok ⟨l⟩) ∧
    (∀ e : Err, cfg.serverGetter.getServers = .error e →
        GetServers cfg = .error e) := by
  constructor
  · intro l h
    simp [GetServers, h]
  · intro e h
    simp [GetServers, h]

/-- Witness for C8 at the fixed one-server getter: the response carries
exactly that server list. -/
theorem c8_witness :
    GetServers cfgNoAuth = .ok ⟨[⟨"a", "addr-a", true⟩]⟩ := by
  exact (c8_getservers_passthrough (List Record) cfgNoAuth).1
    [⟨"a", "addr-a", true⟩] rfl

/-!
## Helper lemmas about the streaming consume loop
-/

theorem consumeStreamStep_done {σ τ : Type} {env : StreamEnv σ τ}
    {st : LoopState σ τ} (hc : env.ctxDone st.iter = true) :
    consumeStreamStep env st = .ret none st := by
  simp [consumeStreamStep, hc]

theorem consumeStreamStep_oor {σ τ : Type} {env : StreamEnv σ τ}
    {st : LoopState σ τ} {e : Err} (hc : env.ctxDone st.iter = false)
    (hres : (Consume env.cfg env.subj ⟨st.offset⟩ st.log).result = .error e)
    (hoor : e.isOffsetOutOfRange = true) :
    consumeStreamStep env st = .next
      { st with
          iter := st.iter + 1
          log := (Consume env.cfg env.subj ⟨st.offset⟩ st.log).state
          events := st.events ++
            (Consume env.cfg env.subj ⟨st.offset⟩ st.log).events } := by
  simp [consumeStreamStep, hc, hres, hoor]

theorem consumeStreamStep_err {σ τ : Type} {env : StreamEnv σ τ}
    {st : LoopState σ τ} {e : Err} (hc : env.ctxDone st.iter = false)
    (hres : (Consume env.cfg env.subj ⟨st.offset⟩ st.log).result = .error e)
    (hoor : e.isOffsetOutOfRange = false) :
    consumeStreamStep env st = .ret (some e)
      { st with
          log := (Consume env.cfg env.subj ⟨st.offset⟩ st.log).state
          events := st.events ++
            (Consume env.cfg env.subj ⟨st.offset⟩ st.log).events } := by
  simp [consumeStreamStep, hc, hres, hoor]

theorem consumeStreamStep_send_err {σ τ : Type} {env : StreamEnv σ τ}
    {st : LoopState σ τ} {res : ConsumeResponse} {t₂ : τ} {e : Err}
    (hc : env.ctxDone st.iter = false)
    (hres : (Consume env.cfg env.subj ⟨st.offset⟩ st.log).result = .ok res)
    (hsend : env.send st.stream res = (t₂, some e)) :
    consumeStreamStep env st = .ret (some e)
      { st with
          log := (Consume env.cfg env.subj ⟨st.offset⟩ st.log).state
          stream := t₂
          events := st.events ++
            (Consume env.cfg env.subj ⟨st.offset⟩ st.log).events } := by
  simp [consumeStreamStep, hc, hres, hsend]

theorem consumeStreamStep_send_ok {σ τ : Type} {env : StreamEnv σ τ}
    {st : LoopState σ τ} {res : ConsumeResponse} {t₂ : τ}
    (hc : env.ctxDone st.iter = false)
    (hres : (Consume env.cfg env.subj ⟨st.offset⟩ st.log).result = .ok res)
    (hsend : env.send st.stream res = (t₂, none)) :
    consumeStreamStep env st = .next
      { st with
          iter := st.iter + 1
          offset := st.offset + 1
          log := (Consume env.cfg env.subj ⟨st.offset⟩ st.log).state
          stream := t₂
          sent := st.sent ++ [(st.offset, res)]
          events := st.events ++
            (Consume env.cfg env.subj ⟨st.offset⟩ st.log).events } := by
  simp [consumeStreamStep, hc, hres, hsend]

/-- Exhaustive description of one iteration of the `ConsumeStream` loop:
either the context is done and the handler returns nil at once, or the
iteration takes exactly one of the four `default`-branch paths. -/
theorem consumeStreamStep_spec {σ τ : Type} (env : StreamEnv σ τ)
    (st : LoopState σ τ) :
    (env.ctxDone st.iter = true ∧ consumeStreamStep env st = .ret none st) ∨
    (env.ctxDone st.iter = false ∧
      ((∃ e, (Consume env.cfg env.subj ⟨st.offset⟩ st.log).result = .error e ∧
          e.isOffsetOutOfRange = true ∧
          consumeStreamStep env st = .next
            { st with
                iter := st.iter + 1
                log := (Consume env.cfg env.subj ⟨st.offset⟩ st.log).state
                events := st.events ++
                  (Consume env.cfg env.subj ⟨st.offset⟩ st.log).events }) ∨
       (∃ e, (Consume env.cfg env.subj ⟨st.offset⟩ st.log).result = .error e ∧
          e.isOffsetOutOfRange = false ∧
          consumeStreamStep env st = .ret (some e)
            { st with
                log := (Consume env.cfg env.subj ⟨st.offset⟩ st.log).state
                events := st.events ++
                  (Consume env.cfg env.subj ⟨st.offset⟩ st.log).events }) ∨
       (∃ res t₂ e,
          (Consume env.cfg env.subj ⟨st.offset⟩ st.log).result = .ok res ∧
          env.send st.stream res = (t₂, some e) ∧
          consumeStreamStep env st = .ret (some e)
            { st with
                log := (Consume env.cfg env.subj ⟨st.offset⟩ st.log).state
                stream := t₂
                events := st.events ++
                  (Consume env.cfg env.subj ⟨st.offset⟩ st.log).events }) ∨
       (∃ res t₂,
          (Consume env.cfg env.subj ⟨st.offset⟩ st.log).result = .ok res ∧
          env.send st.stream res = (t₂, none) ∧
          consumeStreamStep env st = .next
            { st with
                iter := st.iter + 1
                offset := st.offset + 1
                log := (Consume env.cfg env.subj ⟨st.offset⟩ st.log).state
                stream := t₂
                sent := st.sent ++ [(st.offset, res)]
                events := st.events ++
                  (Consume env.cfg env.subj ⟨st.offset⟩ st.log).events }))) := by
  by_cases hc : env.ctxDone st.iter
  · exact .inl ⟨hc, consumeStreamStep_done hc⟩
  · have hc' : env.ctxDone st.iter = false := by simpa using hc
    refine .inr ⟨hc', ?_⟩
    cases hres : (Consume env.cfg env.subj ⟨st.offset⟩ st.log).result with
    | error e =>
      by_cases hoor : e.isOffsetOutOfRange
      · exact .inl ⟨e, rfl, hoor, consumeStreamStep_oor hc' hres hoor⟩
      · have hoor' : e.isOffsetOutOfRange = false := by simpa using hoor
        exact .inr (.inl ⟨e, rfl, hoor',
          consumeStreamStep_err hc' hres hoor'⟩)
    | ok res =>
      rcases hsend : env.send st.stream res with ⟨t₂, serr⟩
      cases serr with
      | some e =>
        exact .inr (.inr (.inl ⟨res, t₂, e, rfl, hsend,
          consumeStreamStep_send_err hc' hres hsend⟩))
      | none =>
        exact .inr (.inr (.inr ⟨res, t₂, rfl, hsend,
          consumeStreamStep_send_ok hc' hres hsend⟩))

/-- The events accumulated by a step extend the previous events with the
trace of one `Consume` call (or nothing when the context was done). -/
theorem consumeStreamStep_events {σ τ : Type} (env : StreamEnv σ τ)
    (st st₂ : LoopState σ τ)
    (h : consumeStreamStep env st = .next st₂ ∨
      ∃ e, consumeStreamStep env st = .ret e st₂) :
    st₂.events = st.events ∨
    st₂.events = st.events ++
      (Consume env.cfg env.subj ⟨st.offset⟩ st.log).events := by
  rcases consumeStreamStep_spec env st with ⟨hc, hstep⟩ |
    ⟨hc, ⟨e, hres, hoor, hstep⟩ | ⟨e, hres, hoor, hstep⟩ |
      ⟨res, t₂, e, hres, hsend, hstep⟩ | ⟨res, t₂, hres, hsend, hstep⟩⟩ <;>
    rcases h with h | ⟨e₂, h⟩ <;> rw [hstep] at h <;> cases h <;> simp

/-!
## Remaining claims
-/

/-- C10: with `Config.Authorizer` nil, `NewGRPCServer` leaves the
caller-supplied option list untouched (no interceptors installed), and
both unary handlers coincide with their commit-log-only cores — which do
not depend on the caller's identity — recording exactly the commit-log
operation and no `Authorize` call. -/
theorem c10_nil_authorizer_skips_all_auth (σ : Type) (cfg : Config σ)
    (h : cfg.authorizer = none) :
    (∀ opts : List ServerOption, NewGRPCServer cfg opts = opts) ∧
    (∀ (subj : String) (req : ProduceRequest) (s : σ),
        Produce cfg subj req s = produceCore cfg req s ∧
        (Produce cfg subj req s).events = [.append req.record]) ∧
    (∀ (subj : String) (req : ConsumeRequest) (s : σ),
        Consume cfg subj req s = consumeCore cfg req s ∧
        (Consume cfg subj req s).events = [.read req.offset]) := by
  refine ⟨fun opts => by simp [NewGRPCServer, h], ?_, ?_⟩
  · intro subj req s
    refine ⟨Produce_auth_none h subj req s, ?_⟩
    rw [Produce_auth_none h subj req s, produceCore_events]
  · intro subj req s
    refine ⟨Consume_auth_none h subj req s, ?_⟩
    rw [Consume_auth_none h subj req s, consumeCore_events]

theorem authActionsAreConsume_append {l₁ l₂ : List Event}
    (h₁ : authActionsAreConsume l₁) (h₂ : authActionsAreConsume l₂) :
    authActionsAreConsume (l₁ ++ l₂) := by
  intro su ob ac h
  rcases List.mem_append.mp h with h | h
  · exact h₁ su ob ac h
  · exact h₂ su ob ac h

theorem produce_auth_events_consume {σ : Type} (cfg : Config σ)
    (subj : String) (req : ProduceRequest) (s : σ) :
    authActionsAreConsume (Produce cfg subj req s).events := by
  intro su ob ac h
  cases hA : cfg.authorizer with
  | none =>
    rw [Produce_auth_none hA, produceCore_events] at h
    simp at h
  | some a =>
    cases he : a.authorize subj objectWildcard consumeAction with
    | some e =>
      rw [Produce_auth_denied hA he] at h
      simp at h
      exact h.2.2
    | none =>
      rw [Produce_auth_ok hA he] at h
      simp [produceCore_events] at h
      exact h.2.2

theorem consume_auth_events_consume {σ : Type} (cfg : Config σ)
    (subj : String) (req : ConsumeRequest) (s : σ) :
    authActionsAreConsume (Consume cfg subj req s).events := by
  intro su ob ac h
  cases hA : cfg.authorizer with
  | none =>
    rw [Consume_auth_none hA, consumeCore_events] at h
    simp at h
  | some a =>
    cases he : a.authorize subj objectWildcard consumeAction with
    | some e =>
      rw [Consume_auth_denied hA he] at h
      simp at h
      exact h.2.2
    | none =>
      rw [Consume_auth_ok hA he] at h
      simp [consumeCore_events] at h
      exact h.2.2

theorem produceStreamStep_recv_error {σ τ : Type}
    {env : ProduceStreamEnv σ τ} {s : σ} {t t₂ : τ} {e : Err}
    (hrecv : env.recv t = (t₂, .error e)) :
    produceStreamStep env s t = .ret e s t₂ [] := by
  simp [produceStreamStep, hrecv]

theorem produceStreamStep_produce_error {σ τ : Type}
    {env : ProduceStreamEnv σ τ} {s : σ} {t t₂ : τ} {req : ProduceRequest}
    {e : Err} (hrecv : env.recv t = (t₂, .ok req))
    (hres : (Produce env.cfg env.subj req s).result = .error e) :
    produceStreamStep env s t =
      .ret e (Produce env.cfg env.subj req s).state t₂
        (Produce env.cfg env.subj req s).events := by
  simp [produceStreamStep, hrecv, hres]

theorem produceStreamStep_send_error {σ τ : Type}
    {env : ProduceStreamEnv σ τ} {s : σ} {t t₂ t₃ : τ}
    {req : ProduceRequest} {res : ProduceResponse} {e : Err}
    (hrecv : env.recv t = (t₂, .ok req))
    (hres : (Produce env.cfg env.subj req s).result = .ok res)
    (hsend : env.send t₂ res = (t₃, some e)) :
    produceStreamStep env s t =
      .ret e (Produce env.cfg env.subj req s).state t₃
        (Produce env.cfg env.subj req s).events := by
  simp [produceStreamStep, hrecv, hres, hsend]

theorem produceStreamStep_all_ok {σ τ : Type}
    {env : ProduceStreamEnv σ τ} {s : σ} {t t₂ t₃ : τ}
    {req : ProduceRequest} {res : ProduceResponse}
    (hrecv : env.recv t = (t₂, .ok req))
    (hres : (Produce env.cfg env.subj req s).result = .ok res)
    (hsend : env.send t₂ res = (t₃, none)) :
    produceStreamStep env s t =
      .next (Produce env.cfg env.subj req s).state t₃
        (Produce env.cfg env.subj req s).events := by
  simp [produceStreamStep, hrecv, hres, hsend]

/-- The events reported by a produce-stream iteration are either empty (a
failed receive) or the trace of the `Produce` call it delegated to. -/
theorem produceStreamStep_events {σ τ : Type} (env : ProduceStreamEnv σ τ)
    (s : σ) (t : τ) (evs : List Event)
    (h : (∃ e s₂ t₂, produceStreamStep env s t = .ret e s₂ t₂ evs) ∨
      (∃ s₂ t₂, produceStreamStep env s t = .next s₂ t₂ evs)) :
    evs = [] ∨ ∃ req, evs = (Produce env.cfg env.subj req s).events := by
  rcases hrecv : env.recv t with ⟨t₂, rq⟩
  cases rq with
  | error e =>
    have hstep := produceStreamStep_recv_error (s := s) hrecv
    rcases h with ⟨e', s₂, t₃, h⟩ | ⟨s₂, t₃, h⟩ <;> rw [hstep] at h <;> cases h
    exact .inl rfl
  | ok req =>
    cases hres : (Produce env.cfg env.subj req s).result with
    | error e =>
      have hstep := produceStreamStep_produce_error hrecv hres
      rcases h with ⟨e', s₂, t₃, h⟩ | ⟨s₂, t₃, h⟩ <;> rw [hstep] at h <;>
        cases h
      exact .inr ⟨req, rfl⟩
    | ok res =>
      rcases hsend : env.send t₂ res with ⟨t₃, serr⟩
      cases serr with
      | some e =>
        have hstep := produceStreamStep_send_error hrecv hres hsend
        rcases h with ⟨e', s₂, t₄, h⟩ | ⟨s₂, t₄, h⟩ <;> rw [hstep] at h <;>
          cases h
        exact .inr ⟨req, rfl⟩
      | none =>
        have hstep := produceStreamStep_all_ok hrecv hres hsend
        rcases h with ⟨e', s₂, t₄, h⟩ | ⟨s₂, t₄, h⟩ <;> rw [hstep] at h <;>
          cases h
        exact .inr ⟨req, rfl⟩

/-- C9: the action string the Produce handler hands to `Authorize` is the
consume action `"consume"` (the first recorded event of an authorized
Produce names it), and on no code path of the server — Produce, Consume,
and the two streaming loops that delegate to them — is the produce
constant `"produce"` ever handed to `Authorize`, so produce and consume
requests are authorized against the same action. -/
theorem c9_produce_authorized_with_consume_action :
    consumeAction = "consume" ∧ produceAction = "produce" ∧
    (∀ (σ : Type) (cfg : Config σ) (a : Authorizer) (subj : String)
        (req : ProduceRequest) (s : σ), cfg.authorizer = some a →
        (Produce cfg subj req s).events.head? =
          some (.auth subj objectWildcard consumeAction)) ∧
    (∀ (σ : Type) (cfg : Config σ) (subj : String) (req : ProduceRequest)
        (s : σ), authActionsAreConsume (Produce cfg subj req s).events) ∧
    (∀ (σ : Type) (cfg : Config σ) (subj : String) (req : ConsumeRequest)
        (s : σ), authActionsAreConsume (Consume cfg subj req s).events) ∧
    (∀ (σ τ : Type) (env : StreamEnv σ τ) (st st₂ : LoopState σ τ),
        authActionsAreConsume st.events →
        (consumeStreamStep env st = .next st₂ ∨
          ∃ e, consumeStreamStep env st = .ret e st₂) →
        authActionsAreConsume st₂.events) ∧
    (∀ (σ τ : Type) (env : ProduceStreamEnv σ τ) (s : σ) (t : τ)
        (evs : List Event),
        ((∃ e s₂ t₂, produceStreamStep env s t = .ret e s₂ t₂ evs) ∨
          (∃ s₂ t₂, produceStreamStep env s t = .next s₂ t₂ evs)) →
        authActionsAreConsume evs) := by
  refine ⟨rfl, rfl, ?_,
    fun σ cfg subj req s => produce_auth_events_consume cfg subj req s,
    fun σ cfg subj req s => consume_auth_events_consume cfg subj req s,
    ?_, ?_⟩
  · intro σ cfg a subj req s hA
    cases he : a.authorize subj objectWildcard consumeAction with
    | some e => rw [Produce_auth_denied hA he]; rfl
    | none => rw [Produce_auth_ok hA he]; rfl
  · intro σ τ env st st₂ hst h
    rcases consumeStreamStep_events env st st₂ h with hev | hev
    · rw [hev]; exact hst
    · rw [hev]
      exact authActionsAreConsume_append hst
        (consume_auth_events_consume env.cfg env.subj ⟨st.offset⟩ st.log)
  · intro σ τ env s t evs h
    rcases produceStreamStep_events env s t evs h with rfl | ⟨req, rfl⟩
    · intro su ob ac hmem
      cases hmem
    · exact produce_auth_events_consume env.cfg env.subj req s

/-- Witness for C9: with the always-allow authorizer, the event recorded
by a concrete Produce call is an `Authorize` call whose action is the
consume string, and the step lemmas apply at the concrete stream state. -/
theorem c9_witness :
    (Produce cfgAllow "alice" ⟨rec0⟩ []).events.head? =
      some (.auth "alice" objectWildcard consumeAction) ∧
    authActionsAreConsume (Produce cfgAllow "alice" ⟨rec0⟩ []).events := by
  exact ⟨c9_produce_authorized_with_consume_action.2.2.1 (List Record)
      cfgAllow allowAuth "alice" ⟨rec0⟩ [] rfl,
    c9_produce_authorized_with_consume_action.2.2.2.1 (List Record)
      cfgAllow "alice" ⟨rec0⟩ []⟩

/-- Witness for C10 at the authorizer-free config: options pass through
untouched and the handlers record only their commit-log operation. -/
theorem c10_witness :
    NewGRPCServer cfgNoAuth [ServerOption.other 5] = [ServerOption.other 5] ∧
    (Produce cfgNoAuth "nobody" ⟨rec0⟩ []).events = [.append rec0] ∧
    (Consume cfgNoAuth "nobody" ⟨0⟩ []).events = [.read 0] := by
  exact ⟨(c10_nil_authorizer_skips_all_auth (List Record) cfgNoAuth rfl).1
      [ServerOption.other 5],
    ((c10_nil_authorizer_skips_all_auth (List Record) cfgNoAuth rfl).2.1
      "nobody" ⟨rec0⟩ []).2,
    ((c10_nil_authorizer_skips_all_auth (List Record) cfgNoAuth rfl).2.2
      "nobody" ⟨0⟩ []).2⟩

theorem consumeStreamRun_ret {σ τ : Type} {env : StreamEnv σ τ}
    {st st₂ : LoopState σ τ} {e : Option Err}
    (h : consumeStreamStep env st = .ret e st₂) (n : Nat) :
    consumeStreamRun env (n + 1) st = .terminated e st₂ := by
  simp only [consumeStreamRun]
  rw [h]

theorem consumeStreamRun_next {σ τ : Type} {env : StreamEnv σ τ}
    {st st₂ : LoopState σ τ}
    (h : consumeStreamStep env st = .next st₂) (n : Nat) :
    consumeStreamRun env (n + 1) st = consumeStreamRun env n st₂ := by
  simp only [consumeStreamRun]
  rw [h]

/-- C2: the streaming consume loop checks its context's `Done` channel at
the top of every iteration; a done context makes the handler return nil at
once with the loop state untouched (no further read, send, or recorded
event); and a nil return can happen in no other way — any run that
terminates successfully did so at an iteration where the context was
done. -/
theorem c2_cancellation_is_only_clean_exit (σ τ : Type)
    (env : StreamEnv σ τ) :
    (∀ st : LoopState σ τ, env.ctxDone st.iter = true →
        consumeStreamStep env st = .ret none st) ∧
    (∀ st st₂ : LoopState σ τ, consumeStreamStep env st = .ret none st₂ →
        env.ctxDone st.iter = true ∧ st₂ = st) ∧
    (∀ (fuel : Nat) (st st₂ : LoopState σ τ),
        consumeStreamRun env fuel st = .terminated none st₂ →
        env.ctxDone st₂.iter = true) := by
  have hstep : ∀ st st₂ : LoopState σ τ,
      consumeStreamStep env st = .ret none st₂ →
      env.ctxDone st.iter = true ∧ st₂ = st := by
    intro st st₂ h
    rcases consumeStreamStep_spec env st with ⟨hc, hs⟩ |
      ⟨hc, ⟨e, hres, hoor, hs⟩ | ⟨e, hres, hoor, hs⟩ |
        ⟨res, t₂, e, hres, hsend, hs⟩ | ⟨res, t₂, hres, hsend, hs⟩⟩ <;>
      rw [hs] at h <;> cases h
    exact ⟨hc, rfl⟩
  refine ⟨fun st hc => consumeStreamStep_done hc, hstep, ?_⟩
  intro fuel
  induction fuel with
  | zero =>
    intro st st₂ h
    cases h
  | succ n ih =>
    intro st st₂ h
    cases hs : consumeStreamStep env st with
    | ret e st₃ =>
      rw [consumeStreamRun_ret hs n] at h
      cases h
      obtain ⟨hc, hst⟩ := hstep st st₂ hs
      rw [hst]
      exact hc
    | next st₃ =>
      rw [consumeStreamRun_next hs n] at h
      exact ih st₃ st₂ h

/-- Witness for C2 at a concrete already-cancelled stream: the step
returns nil immediately with the state untouched, and the run's
termination point indeed has a done context. -/
theorem c2_witness :
    consumeStreamStep doneEnv st0 = .ret none st0 ∧
    doneEnv.ctxDone st0.iter = true := by
  exact ⟨(c2_cancellation_is_only_clean_exit (List Record) Nat doneEnv).1
      st0 rfl,
    (c2_cancellation_is_only_clean_exit (List Record) Nat doneEnv).2.2
      1 st0 st0 rfl⟩

/-- C1: when the context is live and `Consume` fails, an
`ErrOffsetOutOfRange` failure makes the loop continue immediately — same
offset, nothing sent, no backoff state of any kind — while any other
error returns from the handler with exactly that error; and with a
never-done context and reads that keep failing out-of-range, the loop is
still running at the same offset after any number of iterations. -/
theorem c1_oor_retries_same_offset_forever (σ τ : Type)
    (env : StreamEnv σ τ) :
    (∀ (st : LoopState σ τ) (e : Err), env.ctxDone st.iter = false →
        (Consume env.cfg env.subj ⟨st.offset⟩ st.log).result = .error e →
        (e.isOffsetOutOfRange = true →
          ∃ st₂, consumeStreamStep env st = .next st₂ ∧
            st₂.offset = st.offset ∧ st₂.sent = st.sent) ∧
        (e.isOffsetOutOfRange = false →
          consumeStreamStep env st = .ret (some e)
            { st with
                log := (Consume env.cfg env.subj ⟨st.offset⟩ st.log).state
                events := st.events ++
                  (Consume env.cfg env.subj ⟨st.offset⟩ st.log).events })) ∧
    ((∀ i, env.ctxDone i = false) →
      ∀ off : Nat,
        (∀ s : σ, ∃ e,
          (Consume env.cfg env.subj ⟨off⟩ s).result = .error e ∧
          e.isOffsetOutOfRange = true) →
        ∀ (k : Nat) (st : LoopState σ τ), st.offset = off →
          ∃ st₂, consumeStreamRun env k st = .running st₂ ∧
            st₂.offset = off) := by
  constructor
  · intro st e hc hres
    constructor
    · intro hoor
      exact ⟨_, consumeStreamStep_oor hc hres hoor, rfl, rfl⟩
    · intro hoor
      exact consumeStreamStep_err hc hres hoor
  · intro hnd off hoor k
    induction k with
    | zero =>
      intro st hofs
      exact ⟨st, rfl, hofs⟩
    | succ n ih =>
      intro st hofs
      obtain ⟨e, hres, hoorE⟩ := hoor st.log
      rw [← hofs] at hres
      have hstep := consumeStreamStep_oor (hnd st.iter) hres hoorE
      rw [consumeStreamRun_next hstep n]
      exact ih _ hofs

/-- Witness for C1 over a log whose reads always fail out-of-range and a
never-cancelled context: one step retries at offset 0 with nothing sent,
and after 5 iterations the loop is still running at offset 0. -/
theorem c1_witness :
    (∃ st₂, consumeStreamStep oorEnv st0 = .next st₂ ∧
        st₂.offset = st0.offset ∧ st₂.sent = st0.sent) ∧
    (∃ st₂, consumeStreamRun oorEnv 5 st0 = .running st₂ ∧
        st₂.offset = 0) := by
  exact ⟨((c1_oor_retries_same_offset_forever (List Record) Nat oorEnv).1
      st0 (.offsetOutOfRange 0) rfl rfl).1 rfl,
    (c1_oor_retries_same_offset_forever (List Record) Nat oorEnv).2
      (fun i => rfl) 0 (fun s => ⟨.offsetOutOfRange 0, rfl, rfl⟩) 5 st0 rfl⟩

theorem step_preserves_consecutive {σ τ : Type} (env : StreamEnv σ τ)
    (k : Nat) (st st₂ : LoopState σ τ)
    (hmap : st.sent.map Prod.fst = List.range' k st.sent.length)
    (hofs : st.offset = k + st.sent.length)
    (h : consumeStreamStep env st = .next st₂ ∨
      ∃ e, consumeStreamStep env st = .ret e st₂) :
    st₂.sent.map Prod.fst = List.range' k st₂.sent.length ∧
      st₂.offset = k + st₂.sent.length := by
  rcases consumeStreamStep_spec env st with ⟨hc, hs⟩ | ⟨hc, hcase⟩
  · rcases h with h | ⟨e₂, h⟩ <;> rw [hs] at h <;> cases h
    exact ⟨hmap, hofs⟩
  · rcases hcase with ⟨e, hres, hoor, hs⟩ | ⟨e, hres, hoor, hs⟩ |
      ⟨res, t₂, e, hres, hsend, hs⟩ | ⟨res, t₂, hres, hsend, hs⟩
    · rcases h with h | ⟨e₂, h⟩ <;> rw [hs] at h <;> cases h
      exact ⟨hmap, hofs⟩
    · rcases h with h | ⟨e₂, h⟩ <;> rw [hs] at h <;> cases h
      exact ⟨hmap, hofs⟩
    · rcases h with h | ⟨e₂, h⟩ <;> rw [hs] at h <;> cases h
      exact ⟨hmap, hofs⟩
    · rcases h with h | ⟨e₂, h⟩ <;> rw [hs] at h <;> cases h
      refine ⟨?_, ?_⟩
      · show (st.sent ++ [(st.offset, res)]).map Prod.fst =
          List.range' k (st.sent ++ [(st.offset, res)]).length
        rw [List.map_append, List.length_append, hmap]
        simp [List.range'_1_concat, hofs]
      · show st.offset + 1 = k + (st.sent ++ [(st.offset, res)]).length
        simp only [List.length_append, List.length_cons, List.length_nil,
          hofs]
        omega

theorem run_preserves_consecutive {σ τ : Type} (env : StreamEnv σ τ)
    (k : Nat) : ∀ (fuel : Nat) (st : LoopState σ τ),
    st.sent.map Prod.fst = List.range' k st.sent.length →
    st.offset = k + st.sent.length →
    ((consumeStreamRun env fuel st).state).sent.map Prod.fst =
      List.range' k ((consumeStreamRun env fuel st).state).sent.length ∧
    ((consumeStreamRun env fuel st).state).offset =
      k + ((consumeStreamRun env fuel st).state).sent.length := by
  intro fuel
  induction fuel with
  | zero =>
    intro st hmap hofs
    exact ⟨hmap, hofs⟩
  | succ n ih =>
    intro st hmap hofs
    cases hs : consumeStreamStep env st with
    | ret e st₂ =>
      rw [consumeStreamRun_ret hs n]
      exact step_preserves_consecutive env k st st₂ hmap hofs (.inr ⟨e, hs⟩)
    | next st₂ =>
      rw [consumeStreamRun_next hs n]
      obtain ⟨h1, h2⟩ :=
        step_preserves_consecutive env k st st₂ hmap hofs (.inl hs)
      exact ih st₂ h1 h2

/-- C3: a successfully sent response is recorded at the pre-increment
request offset and advances the offset by exactly one; a failed read
advances nothing; consequently every run from a fresh stream at offset
`k` has sent responses at exactly the consecutive offsets
`k, k+1, …` (`range' k m`) and its request offset sits at `k` plus the
number of responses sent. -/
theorem c3_offsets_strictly_consecutive (σ τ : Type)
    (env : StreamEnv σ τ) :
    (∀ (st : LoopState σ τ) (res : ConsumeResponse) (t₂ : τ),
        env.ctxDone st.iter = false →
        (Consume env.cfg env.subj ⟨st.offset⟩ st.log).result = .ok res →
        env.send st.stream res = (t₂, none) →
        ∃ st₂, consumeStreamStep env st = .next st₂ ∧
          st₂.offset = st.offset + 1 ∧
          st₂.sent = st.sent ++ [(st.offset, res)]) ∧
    (∀ (st st₂ : LoopState σ τ) (e : Err),
        (Consume env.cfg env.subj ⟨st.offset⟩ st.log).result = .error e →
        (consumeStreamStep env st = .next st₂ ∨
          ∃ e₂, consumeStreamStep env st = .ret e₂ st₂) →
        st₂.offset = st.offset ∧ st₂.sent = st.sent) ∧
    (∀ (req : ConsumeRequest) (s : σ) (t : τ) (fuel : Nat),
        ((consumeStreamRun env fuel (initLoopState req s t)).state).sent.map
            Prod.fst =
          List.range' req.offset
            ((consumeStreamRun env fuel
              (initLoopState req s t)).state).sent.length ∧
        ((consumeStreamRun env fuel (initLoopState req s t)).state).offset =
          req.offset +
            ((consumeStreamRun env fuel
              (initLoopState req s t)).state).sent.length) := by
  refine ⟨?_, ?_, ?_⟩
  · intro st res t₂ hc hres hsend
    exact ⟨_, consumeStreamStep_send_ok hc hres hsend, rfl, rfl⟩
  · intro st st₂ e hres h
    rcases consumeStreamStep_spec env st with ⟨hc, hs⟩ | ⟨hc, hcase⟩
    · rcases h with h | ⟨e₂, h⟩ <;> rw [hs] at h <;> cases h
      exact ⟨rfl, rfl⟩
    · rcases hcase with ⟨e', hres', hoor, hs⟩ | ⟨e', hres', hoor, hs⟩ |
        ⟨res, t₂, e', hres', hsend, hs⟩ | ⟨res, t₂, hres', hsend, hs⟩
      · rcases h with h | ⟨e₂, h⟩ <;> rw [hs] at h <;> cases h
        exact ⟨rfl, rfl⟩
      · rcases h with h | ⟨e₂, h⟩ <;> rw [hs] at h <;> cases h
        exact ⟨rfl, rfl⟩
      · rw [hres'] at hres
        cases hres
      · rw [hres'] at hres
        cases hres
  · intro req s t fuel
    exact run_preserves_consecutive env req.offset fuel
      (initLoopState req s t) rfl rfl

/-- Witness for C3 over the one-record log with a never-done context: the
first step sends the record at offset 0 and advances to offset 1, and a
2-iteration run's sent offsets are exactly `range' 0 m`. -/
theorem c3_witness :
    (∃ st₂, consumeStreamStep demoEnv st1 = .next st₂ ∧
        st₂.offset = st1.offset + 1 ∧
        st₂.sent = st1.sent ++ [(st1.offset, ⟨rec0⟩)]) ∧
    ((consumeStreamRun demoEnv 2 st1).state).sent.map Prod.fst =
      List.range' 0 ((consumeStreamRun demoEnv 2 st1).state).sent.length := by
  exact ⟨(c3_offsets_strictly_consecutive (List Record) Nat demoEnv).1
      st1 ⟨rec0⟩ 1 rfl rfl rfl,
    ((c3_offsets_strictly_consecutive (List Record) Nat demoEnv).2.2
      ⟨0⟩ [rec0] 0 2).1⟩

end Ledger
